import Mathlib

/-!
Shallow embedding of the forkscanner scanner engine (src/scanner.rs,
src/models.rs) and proofs about its data model and operations.

Conventions of the embedding:
* Rust machine integers (i64, u64, i32) are modelled as `Int`; `usize`
  counters as `Nat`.
* `BigDecimal` (exact decimal arithmetic) is modelled as `ℚ`.
* Block hashes and transaction ids are `String`.
* Fallible external calls (RPC, database) are supplied by explicit oracle
  records whose fields are `Except`/`Option` values; the embedded control
  flow matches the source line by line.
* `HashSet` values are modelled as `Finset String`.
* Database tables are lists of row structures in insertion order (the diesel
  `first` call takes the earliest matching row).
-/

namespace Forkscanner

/-! ## Constants (scanner.rs 36-47) -/

def MAX_ANCESTRY_DEPTH : Nat := 100

def MAX_BLOCK_DEPTH : Int := 10

def BLOCK_NOT_FOUND : Int := -5

def BLOCK_NOT_ON_DISK : Int := -1

def STALE_WINDOW : Int := 100

def DOUBLE_SPEND_RANGE : Int := 30

def SATOSHI_TO_BTC : Int := 100000000

/-! ## Inflation accounting (scanner.rs 404-408, 1583-1611; models.rs 403-464) -/

/-- scanner.rs 404-408: `calc_max_inflation`.  `reward >> interval` is an
arithmetic right shift of the positive i64 `50 * SATOSHI_TO_BTC`; for a
non-negative value that coincides with the natural-number right shift.  The
i64-to-usize cast of `height` is modelled by `Int.toNat` (heights are
non-negative in every use). -/
def calc_max_inflation (height : Int) : Int :=
  Int.ofNat ((50 * 100000000 : Nat) >>> (height.toNat / 210000))

/-- models.rs 403-413: a row of the `tx_outsets` table (timestamps omitted:
no claim mentions them). -/
structure TxOutsetRow where
  block_hash : String
  node_id : Int
  txouts : Int
  total_amount : ℚ
  inflated : Bool
  deriving Repr, DecidableEq

/-- models.rs 429-450: `TxOutset::create` builds the row with
`inflated = false`. -/
def TxOutset.create (tx_outs : Int) (amount : ℚ) (block : String)
    (node : Int) : TxOutsetRow :=
  { block_hash := block
    node_id := node
    txouts := tx_outs
    total_amount := amount
    inflated := false }

/-- scanner.rs 1583-1611: tail of the inflation-checker worker for one block.
Given the freshly created outset row for the block at `height` and the
stored total of the parent outset row, compute
`inflation = outset.total_amount - prev_total`; when it exceeds
`calc_max_inflation height` the row is updated with `inflated = true` and an
`InflatedBlock` row is created (second component `true`). -/
def inflation_check_finalize (outset : TxOutsetRow) (prev_total : ℚ)
    (height : Int) : TxOutsetRow × Bool :=
  let inflation := outset.total_amount - prev_total
  let max_inflation : ℚ := (calc_max_inflation height : Int)
  if inflation > max_inflation then
    ({ outset with inflated := true }, true)
  else
    (outset, false)

/-! ## Stale-candidate branch comparison (scanner.rs 1911-2039) -/

/-- scanner.rs 1911-2039: `get_confirmed_in_one_branch`.  The database and
RPC derived inputs are passed explicitly: `n_children` from the candidate
row, `roots_headers_only` (all branch roots are headers-only),
`short_txs` / `long_txs` (every block of the first / second branch has at
least one stored transaction), and `short` / `long`, the txid sets of the
first and second child branch (root block plus descendants within
`DOUBLE_SPEND_RANGE`, non-coinbase transactions, as collected by
`block_and_descendant_transactions` into a HashSet). -/
def get_confirmed_in_one_branch (n_children : Int)
    (roots_headers_only short_txs long_txs : Bool)
    (short long : Finset String) : Option (Finset String) :=
  if n_children ≠ 2 then none
  else if roots_headers_only then none
  else if !short_txs then none
  else if !long_txs then none
  else if short.card < long.card then some (short \ long)
  else some (short \ long ∪ long \ short)

/-! ## Chaintip store operations (models.rs 27-196) -/

/-- models.rs 27-38: a row of the `chaintips` table. -/
structure ChaintipRow where
  id : Int
  node : Int
  status : String
  block : String
  height : Int
  parent_chaintip : Option Int
  deriving Repr, DecidableEq

/-- The `chaintips` table in insertion order. -/
abbrev ChaintipTable := List ChaintipRow

/-- models.rs 110-117: `Chaintip::purge` deletes every row whose status is
not `active`. -/
def Chaintip.purge (db : ChaintipTable) : ChaintipTable :=
  db.filter (fun r => r.status == "active")

/-- models.rs 119-135: `Chaintip::set_invalid_fork` inserts a fresh row with
status `invalid`.  `fresh_id` models the sequence-assigned surrogate id. -/
def Chaintip.set_invalid_fork (db : ChaintipTable) (block_height : Int)
    (hash : String) (node_id : Int) (fresh_id : Int) : ChaintipTable :=
  db ++ [⟨fresh_id, node_id, "invalid", hash, block_height, none⟩]

/-- models.rs 137-153: `Chaintip::set_valid_fork` inserts a fresh row with
status `valid-fork`. -/
def Chaintip.set_valid_fork (db : ChaintipTable) (block_height : Int)
    (hash : String) (node_id : Int) (fresh_id : Int) : ChaintipTable :=
  db ++ [⟨fresh_id, node_id, "valid-fork", hash, block_height, none⟩]

/-- models.rs 40-47: `Chaintip::update` overwrites the row that has the id of the given row.  Scanner call sites (scanner.rs 865, 905, 957) only modify
`parent_chaintip` on a row previously loaded from the table. -/
def Chaintip.update (db : ChaintipTable) (row : ChaintipRow) : ChaintipTable :=
  db.map (fun r => if r.id == row.id then row else r)

/-- models.rs 156-196: `Chaintip::set_active_tip`.  Looks up the first `active` row of the node; if found and the stored block hash differs, first nulls
`parent_chaintip` on every row referencing that row, then rewrites the row
in place; if the hash is unchanged nothing happens; if no active row exists
a fresh one is inserted. -/
def Chaintip.set_active_tip (db : ChaintipTable) (block_height : Int)
    (hash : String) (node_id : Int) (fresh_id : Int) : ChaintipTable :=
  match db.find? (fun r => r.status == "active" && r.node == node_id) with
  | some tip =>
      if tip.block ≠ hash then
        let db1 := db.map (fun r =>
          if r.parent_chaintip == some tip.id then
            { r with parent_chaintip := none }
          else r)
        db1.map (fun r =>
          if r.id == tip.id then
            { r with block := hash, height := block_height,
                     parent_chaintip := none }
          else r)
      else db
  | none =>
      db ++ [⟨fresh_id, node_id, "active", hash, block_height, none⟩]

/-- Number of rows with status `active` for a given node. -/
def activeCount (db : ChaintipTable) (n : Int) : Nat :=
  (db.filter (fun r => r.status == "active" && r.node == n)).length

/-- Example chaintip table: node 5 has one active row with id 1. -/
def chaintipExampleDb : ChaintipTable :=
  [⟨1, 5, "active", "h1", 50, none⟩]

/-- Example row for `Chaintip.update`: the active row of node 5 with its
`parent_chaintip` changed, as the linking phase of the scanner does. -/
def chaintipExampleRow : ChaintipRow :=
  ⟨1, 5, "active", "h1", 50, some 9⟩

/-! ## Block ingestion (scanner.rs 410-512; models.rs 517-757) -/

/-- The part of `getblockheaderinfo` used by ingestion. -/
structure HeaderInfo where
  height : Int
  prev_hash : Option String
  work : String
  deriving Repr, DecidableEq

/-- Result of `get_block_info` for a hash: the block body with its txid list
and whether the coinbase transaction has any `vin` entry, or the
`BLOCK_NOT_ON_DISK` RPC error, or any other RPC error. -/
inductive BodyFetch where
  | ok (txids : List String) (coinbase_has_vin : Bool)
  | notOnDisk
  | rpcError
  deriving Repr, DecidableEq

/-- RPC oracle for ingestion: `header` models `get_block_header_info`
(`none` = RPC error), `body` models `get_block_info`. -/
structure IngestOracle where
  header : String → Option HeaderInfo
  body : String → BodyFetch

/-- models.rs 517-540: a row of the `blocks` table.  The pool / fee /
coinbase-message analytics columns are omitted: no claim reads them and
they do not influence control flow beyond what `txids` captures. -/
structure BlockRow where
  hash : String
  height : Int
  parent_hash : Option String
  connected : Bool
  first_seen_by : Int
  headers_only : Bool
  work : String
  txids : Option (List String)
  deriving Repr, DecidableEq

/-- models.rs 697-749: `Block::get_or_create`.  A missing row is inserted
with `connected = false` and, in the same transaction, any stored child of
the new block gets `connected = true`; an existing row only has its
`headers_only` flag and-ed with the argument.  Returns the updated table and
the block value the caller works with. -/
def Block.get_or_create (db : List BlockRow) (headers_only : Bool)
    (first_seen_by : Int) (hash : String) (header : HeaderInfo) :
    List BlockRow × BlockRow :=
  match db.find? (fun r => r.hash == hash) with
  | none =>
      let b : BlockRow :=
        { hash := hash
          height := header.height
          parent_hash := header.prev_hash
          connected := false
          first_seen_by := first_seen_by
          headers_only := headers_only
          work := header.work
          txids := none }
      ((db.map (fun r =>
          if r.parent_hash == some hash then { r with connected := true }
          else r)) ++ [b], b)
  | some b0 =>
      let b := { b0 with headers_only := b0.headers_only && headers_only }
      (db.map (fun r => if r.hash == hash then b else r), b)

/-- How one call of `create_block_and_ancestors` ended. -/
inductive IngestStop where
  | depthExhausted
  | alreadyConnected
  | noParent
  | prunedBody
  | headerRpcError
  | bodyRpcError
  | invalidCoinbase
  deriving Repr, DecidableEq

/-- The stop reasons on which the source returns `Ok(())`; the other three
map to `Err(_)`. -/
def ingestStopIsOk : IngestStop → Bool
  | .depthExhausted => true
  | .alreadyConnected => true
  | .noParent => true
  | .prunedBody => true
  | _ => false

/-- scanner.rs 413-512: the `for _ in 0..MAX_ANCESTRY_DEPTH` walk of
`create_block_and_ancestors`, recursing on the remaining depth.  Each
iteration fetches the header, upserts the row, breaks at a connected block,
fetches the body (a `BLOCK_NOT_ON_DISK` error returns `Ok(())`), rejects a
coinbase with no inputs, stores the txid digest, and steps to the parent
hash if any. -/
def create_block_and_ancestors_loop (o : IngestOracle) (headers_only : Bool)
    (node_id : Int) : Nat → String → List BlockRow →
    List BlockRow × IngestStop
  | 0, _, db => (db, .depthExhausted)
  | n + 1, hash, db =>
    match o.header hash with
    | none => (db, .headerRpcError)
    | some hi =>
      let res := Block.get_or_create db headers_only node_id hash hi
      let db1 := res.1
      let block := res.2
      if block.connected then (db1, .alreadyConnected)
      else
        match o.body hash with
        | .notOnDisk => (db1, .prunedBody)
        | .rpcError => (db1, .bodyRpcError)
        | .ok txids has_vin =>
          match txids with
          | [] =>
            -- no coinbase transaction: warning only, fee columns untouched
            (match block.parent_hash with
             | some h => create_block_and_ancestors_loop o headers_only
                 node_id n h db1
             | none => (db1, .noParent))
          | _ :: _ =>
            if !has_vin then (db1, .invalidCoinbase)
            else
              let db2 := db1.map (fun r =>
                if r.hash == hash then { r with txids := some txids } else r)
              (match block.parent_hash with
               | some h => create_block_and_ancestors_loop o headers_only
                   node_id n h db2
               | none => (db2, .noParent))

/-- scanner.rs 413-512: `create_block_and_ancestors`. -/
def create_block_and_ancestors (o : IngestOracle) (db : List BlockRow)
    (headers_only : Bool) (block_hash : String) (node_id : Int) :
    List BlockRow × IngestStop :=
  create_block_and_ancestors_loop o headers_only node_id MAX_ANCESTRY_DEPTH
    block_hash db

/-- Hash of the i-th block of the deep test chain: a one-character
string. -/
def chainHash (i : Nat) : String :=
  String.mk [Char.ofNat (65 + i)]

/-- Inverse of `chainHash`. -/
def chainIdx (h : String) : Option Nat :=
  match h.data with
  | [c] => if 65 ≤ c.toNat then some (c.toNat - 65) else none
  | _ => none

/-- A fresh chain of depth 150: block i has hash `chainHash i`, the tip is
`chainHash 0` at height 150, the parent of block i is block i+1, and every
body is available with one transaction. -/
def deepChainOracle : IngestOracle :=
  { header := fun h =>
      match chainIdx h with
      | some i =>
          if i < 150 then
            some { height := (150 : Int) - i
                   prev_hash := if i + 1 < 150 then some (chainHash (i + 1))
                     else none
                   work := "" }
          else none
      | none => none
    body := fun _ => .ok ["t"] true }

/-- A fresh chain x0 → x1 → x2 whose tip body is pruned
(`BLOCK_NOT_ON_DISK`); all headers and the other bodies are available. -/
def prunedTipOracle : IngestOracle :=
  { header := fun h =>
      if h == "x0" then some { height := 10, prev_hash := some "x1", work := "" }
      else if h == "x1" then some { height := 9, prev_hash := some "x2", work := "" }
      else if h == "x2" then some { height := 8, prev_hash := none, work := "" }
      else none
    body := fun h => if h == "x0" then .notOnDisk else .ok ["t"] true }

/-! ## Stale-candidate finding (scanner.rs 2042-2077; models.rs 577-605, 1044-1062) -/

/-- models.rs 577-581: `Block::count_at_height` counts every stored block at
a height. -/
def count_at_height (db : List BlockRow) (h : Int) : Nat :=
  (db.filter (fun b => b.height == h)).length

/-- models.rs 589-605: the block count per height used by the raw SQL of
`Block::find_stale_candidates`: blocks with no `invalid_blocks` entry
(`LEFT JOIN ... WHERE ib.node IS NULL`).  `inv` is the `invalid_blocks`
table as (hash, node) pairs. -/
def non_invalid_count_at_height (db : List BlockRow)
    (inv : List (String × Int)) (h : Int) : Nat :=
  (db.filter (fun b =>
    b.height == h && !(inv.any (fun m => m.1 == b.hash)))).length

/-- models.rs 679-685: `Block::max_height`. -/
def Block.max_height (db : List BlockRow) : Option Int :=
  (db.map (fun b => b.height)).max?

/-- models.rs 589-605: `Block::find_stale_candidates` — heights above the
cutoff at which more than one block with no invalid-mark is stored. -/
def Block.find_stale_candidates (db : List BlockRow)
    (inv : List (String × Int)) (cutoff : Int) : List Int :=
  ((db.map (fun b => b.height)).dedup).filter (fun h =>
    decide (cutoff < h ∧ 1 < non_invalid_count_at_height db inv h))

/-- scanner.rs 2042-2077: `find_stale_candidates`.  Returns the
(height, n_children) pairs of the `StaleCandidate` rows it creates: for each
SQL candidate above `tip - STALE_WINDOW`, the height is skipped only when
height-1 holds more than one block, and the child count of the created row is
the number of blocks stored at the height. -/
def find_stale_candidates (db : List BlockRow) (inv : List (String × Int)) :
    List (Int × Int) :=
  match Block.max_height db with
  | none => []
  | some tip_height =>
      (Block.find_stale_candidates db inv (tip_height - STALE_WINDOW)).filterMap
        (fun h =>
          if count_at_height db (h - 1) > 1 then none
          else some (h, (count_at_height db h : Int)))

/-- Shorthand for a header-only test block row. -/
def mkBlock (hash : String) (height : Int) : BlockRow :=
  { hash := hash
    height := height
    parent_hash := none
    connected := false
    first_seen_by := 1
    headers_only := false
    work := ""
    txids := none }

/-- Counterexample database for the stale-candidate finder: two blocks at
height 100 with nothing at 99, two blocks at height 90 (one marked invalid)
above a single block at 89. -/
def staleExampleDb : List BlockRow :=
  [mkBlock "a1" 100, mkBlock "a2" 100,
   mkBlock "b1" 90, mkBlock "b2" 90, mkBlock "p" 89]

/-- Invalid-block marks for `staleExampleDb`: b1 is marked invalid by node 1. -/
def staleExampleInv : List (String × Int) := [("b1", 1)]

/-! ## Stale-candidate processing (scanner.rs 1631-1908; models.rs 913-1068) -/

/-- models.rs 964-974: a row of the `stale_candidate` table (creation
timestamp omitted).  The three totals are `f64` in the source; they are
only ever assigned (never accumulated across rows), modelled as ℚ. -/
structure StaleCandidateRow where
  height : Int
  n_children : Int
  confirmed_in_one_branch_total : ℚ
  double_spent_in_one_branch_total : ℚ
  rbf_total : ℚ
  height_processed : Option Int
  deriving Repr, DecidableEq

/-- models.rs 1044-1062: `StaleCandidate::create` — a fresh row with all
totals zero and `height_processed` unset (no-op on height conflict). -/
def StaleCandidate.create (candidate_height : Int) (children : Int) :
    StaleCandidateRow :=
  { height := candidate_height
    n_children := children
    confirmed_in_one_branch_total := 0
    double_spent_in_one_branch_total := 0
    rbf_total := 0
    height_processed := none }

/-- models.rs 913-941: a row of the `stale_candidate_children` table. -/
structure StaleCandidateChildRow where
  candidate_height : Int
  root_id : String
  tip_id : String
  len : Int
  deriving Repr, DecidableEq

/-- scanner.rs 1691-1732: `set_children`.  `blocks` pairs each competing
block at the candidate height with its `descendants_by_work` list (which
always starts at the block itself; the source unwraps `last()`).  The
children rows for the height are purged and rebuilt, and `n_children` is
incremented once per competing block — it is not reset first. -/
def set_children (cand : StaleCandidateRow)
    (blocks : List (String × List String)) :
    StaleCandidateRow × List StaleCandidateChildRow :=
  blocks.foldl
    (fun acc blk =>
      ({ acc.1 with n_children := acc.1.n_children + 1 },
        acc.2 ++ [{ candidate_height := cand.height
                    root_id := blk.1
                    tip_id := (blk.2.getLast?).getD blk.1
                    len := (blk.2.length : Int) }]))
    (cand, [])

/-- scanner.rs 1735-1908: `set_conflicting_txs`.  When
`get_confirmed_in_one_branch` yields a txid set, the three totals (computed
from stored transactions and RPC data, supplied here as oracle values) are
written and `height_processed` is set to the tip height; otherwise the
candidate is left untouched. -/
def set_conflicting_txs (cand : StaleCandidateRow) (tip_height : Int)
    (roots_headers_only short_txs long_txs : Bool)
    (short long : Finset String)
    (confirmed_total ds_total rbf_amount : ℚ) : StaleCandidateRow :=
  match get_confirmed_in_one_branch cand.n_children roots_headers_only
      short_txs long_txs short long with
  | none => cand
  | some _ =>
      { cand with
          confirmed_in_one_branch_total := confirmed_total
          double_spent_in_one_branch_total := ds_total
          rbf_total := rbf_amount
          height_processed := some tip_height }

/-- scanner.rs 1679-1686: one candidate pass of `process_stale_candidates`
(children missing or processing unset): `set_children` then
`set_conflicting_txs` on the same in-memory candidate. -/
def process_candidate (cand : StaleCandidateRow)
    (blocks : List (String × List String)) (tip_height : Int)
    (roots_headers_only short_txs long_txs : Bool)
    (short long : Finset String)
    (confirmed_total ds_total rbf_amount : ℚ) :
    StaleCandidateRow × List StaleCandidateChildRow :=
  let r := set_children cand blocks
  (set_conflicting_txs r.1 tip_height roots_headers_only short_txs long_txs
    short long confirmed_total ds_total rbf_amount, r.2)

/-! ## Rollback checks (scanner.rs 2205-2339) -/

/-- `getchaintips` statuses. -/
inductive TipStatus where
  | active
  | validFork
  | validHeaders
  | headersOnly
  | invalid
  deriving Repr, DecidableEq, BEq

/-- One entry of a `getchaintips` result. -/
structure TipEntry where
  hash : String
  status : TipStatus
  height : Int
  deriving Repr, DecidableEq, BEq

/-- Externally visible effects of one `rollback_checks` tip iteration. -/
inductive RollbackAction where
  | submitBlock (hash : String)
  | netOff
  | netOn
  | invalidate (hash : String)
  | reconsider (hash : String)
  | writeValid (hash : String)
  | noActiveTip
  deriving Repr, DecidableEq, BEq

/-- Result of `get_block_hex` on the mirror. -/
inductive HexRes where
  | ok
  | errCode (code : Int)
  | errOther
  deriving Repr, DecidableEq

/-- Oracle for one iteration of the `rollback_checks` tip loop
(scanner.rs 2228-2337): each field is the result of the corresponding
external call, in source order. -/
structure RollbackTipOracle where
  active_height : Int
  tip_hash : String
  tip_height : Int
  block_get : Option Unit
  is_valid : Except Unit Bool
  is_invalid : Except Unit Bool
  mirror_hex : HexRes
  primary_hex : Option Unit
  submit_res : Except Unit Unit
  net_off : Except Unit Unit
  set_tip : Except Unit (List String)
  tips_after_ok : Except Unit (List TipEntry)
  set_valid_res : Except Unit Unit
  tips_after_err : Except Unit (List TipEntry)

/-- Rust `Result::unwrap_or`. -/
def unwrapOr (e : Except Unit Bool) (d : Bool) : Bool :=
  match e with
  | .ok b => b
  | .error _ => d

/-- scanner.rs 2228-2337: one iteration of the per-tip loop of
`rollback_checks`, as the list of externally visible actions it performs.
The invalidations issued inside `set_tip_active` are reported through the
`set_tip` field of the oracle (that loop is modelled separately as
`set_tip_active_loop`); it performs no `setnetworkactive` call itself. -/
def rollback_tip_check (o : RollbackTipOracle) : List RollbackAction :=
  if o.tip_height < o.active_height - MAX_BLOCK_DEPTH then []
  else
    match o.block_get with
    | none => []
    | some _ =>
      if unwrapOr o.is_valid true || unwrapOr o.is_invalid true then []
      else
        let submit : List RollbackAction × Bool :=
          match o.mirror_hex with
          | .errCode c =>
            if c == BLOCK_NOT_FOUND then
              match o.primary_hex with
              | some _ =>
                match o.submit_res with
                | .ok _ => ([.submitBlock o.tip_hash], false)
                | .error _ => ([], true)
              | none => ([], true)
            else ([], false)
          | _ => ([], false)
        if submit.2 then submit.1
        else
          match o.net_off with
          | .error _ => submit.1
          | .ok _ =>
            let acts1 := submit.1 ++ [.netOff]
            match o.set_tip with
            | .ok invalidated =>
              let acts2 := acts1 ++ invalidated.map RollbackAction.invalidate
              match o.tips_after_ok with
              | .error _ => acts2
              | .ok tips =>
                match tips.find? (fun t => t.status == TipStatus.active) with
                | none => acts2 ++ [.noActiveTip]
                | some active =>
                  if active.hash == o.tip_hash then
                    match o.set_valid_res with
                    | .error _ => acts2
                    | .ok _ =>
                      acts2 ++ [.writeValid o.tip_hash] ++
                        invalidated.map RollbackAction.reconsider ++ [.netOn]
                  else
                    acts2 ++ (tips.filter
                        (fun t => t.status == TipStatus.invalid)).map
                        (fun t => RollbackAction.reconsider t.hash) ++ [.netOn]
            | .error _ =>
              let acts2 := acts1 ++ [.netOn]
              match o.tips_after_err with
              | .error _ => acts2
              | .ok tips =>
                acts2 ++ (tips.filter
                    (fun t => t.status == TipStatus.invalid)).map
                    (fun t => RollbackAction.reconsider t.hash)

/-- Failing input for the P2P re-enable invariant: all guards pass, P2P is
disabled, `set_tip_active` succeeds after invalidating B1, and the
subsequent `get_chain_tips` call fails — the source then `continue`s
(scanner.rs 2279) without re-enabling P2P. -/
def p2pLeakOracle : RollbackTipOracle :=
  { active_height := 100
    tip_hash := "V"
    tip_height := 99
    block_get := some ()
    is_valid := .ok false
    is_invalid := .ok false
    mirror_hex := .ok
    primary_hex := none
    submit_res := .ok ()
    net_off := .ok ()
    set_tip := .ok ["B1"]
    tips_after_ok := .error ()
    set_valid_res := .ok ()
    tips_after_err := .ok [] }

/-- Concrete oracle whose validity-query fails (used by the C10 witness). -/
def queryErrOracle : RollbackTipOracle :=
  { active_height := 100
    tip_hash := "V"
    tip_height := 99
    block_get := some ()
    is_valid := .error ()
    is_invalid := .ok false
    mirror_hex := .ok
    primary_hex := none
    submit_res := .ok ()
    net_off := .ok ()
    set_tip := .ok []
    tips_after_ok := .ok []
    set_valid_res := .ok ()
    tips_after_err := .ok [] }

/-! ## Activate-tip retry loop (scanner.rs 516-578, 2343-2405) -/

/-- Oracle values consumed by one iteration of the activate-tip loop:
`tips` is the `get_chain_tips` result, `branch_point` the database fork
point (`find_branch_point` / `find_fork_point`), `children` the
`Block::children` query. -/
structure LoopIter where
  tips : Except Unit (List TipEntry)
  branch_point : Option String
  children : Except Unit (List String)

/-- Outcome of the activate-tip loop under a fuel bound on the number of
loop iterations. -/
inductive LoopResult where
  | outOfFuel
  | noActiveTip
  | failedRollback
  | success (invalidated : List String)
  deriving Repr, DecidableEq

/-- scanner.rs 2352-2403 (and identically 524-576): the retry loop shared by
`set_tip_active` and `make_block_active`.  A `get_chain_tips` error
`continue`s without touching `retry_count`; the loop breaks with the
accumulated invalidated hashes when the active tip equals the target,
fails once `retry_count > 100`, otherwise invalidates either the active tip
(equal heights) or the branch point plus the children of the target (a children
query error also `continue`s without touching `retry_count`). -/
def set_tip_active_loop (o : Nat → LoopIter) (tip_hash : String)
    (tip_height : Int) : Nat → Nat → List String → Nat → LoopResult
  | _, _, _, 0 => .outOfFuel
  | i, retry, acc, fuel + 1 =>
    match (o i).tips with
    | .error _ => set_tip_active_loop o tip_hash tip_height (i + 1) retry acc
        fuel
    | .ok tips =>
      match tips.find? (fun t => t.status == TipStatus.active) with
      | none => .noActiveTip
      | some active =>
        if active.hash == tip_hash then .success acc
        else if retry > 100 then .failedRollback
        else if active.height == tip_height then
          set_tip_active_loop o tip_hash tip_height (i + 1) (retry + 1)
            (acc ++ [active.hash]) fuel
        else
          match (o i).children with
          | .error _ => set_tip_active_loop o tip_hash tip_height (i + 1)
              retry acc fuel
          | .ok ch =>
            let toInvalidate :=
              (match (o i).branch_point with
               | some b => [b]
               | none => []) ++ ch
            set_tip_active_loop o tip_hash tip_height (i + 1) (retry + 1)
              (acc ++ toInvalidate) fuel

/-- scanner.rs 2343-2405: `set_tip_active`. -/
def set_tip_active (o : Nat → LoopIter) (tip_hash : String)
    (tip_height : Int) (fuel : Nat) : LoopResult :=
  set_tip_active_loop o tip_hash tip_height 0 0 [] fuel

/-- scanner.rs 516-578: `make_block_active` — the identical loop run against
the hash and height of the block row. -/
def make_block_active (o : Nat → LoopIter) (block_hash : String)
    (block_height : Int) (fuel : Nat) : LoopResult :=
  set_tip_active_loop o block_hash block_height 0 0 [] fuel

/-- An oracle whose `get_chain_tips` always fails. -/
def chainTipsErrOracle : Nat → LoopIter :=
  fun _ => { tips := .error (), branch_point := none, children := .error () }

/-- An oracle that always reports active tip A (height 7, never the target)
and answers every query successfully. -/
def alwaysForeignTipOracle : Nat → LoopIter :=
  fun _ =>
    { tips := .ok [{ hash := "A", status := TipStatus.active, height := 7 }]
      branch_point := some "A"
      children := .ok ["c1"] }

/-! ## Theorems -/

theorem calc_max_inflation_eq_div (height : Int) :
    calc_max_inflation height =
      Int.ofNat (5000000000 / 2 ^ (height.toNat / 210000)) := by
  unfold calc_max_inflation
  rw [Nat.shiftRight_eq_div_pow]

/-- C4: in the inflation checker, for a block at height n whose parent has a
stored TxOutset for the same mirror, the computed inflation equals the new
total minus the previous total, and the TxOutset row is marked
`inflated = true` together with an InflatedBlock row being created exactly
when that difference exceeds `calc_max_inflation n = 50·10⁸ >> (n / 210000)`
satoshi; in particular a growth of `calc_max_inflation n + 1` produces
both. -/
theorem c4_inflation_flag (hash : String) (node txouts : Int)
    (prev_total total : ℚ) (height : Int) :
    (((inflation_check_finalize (TxOutset.create txouts total hash node)
          prev_total height).1.inflated = true ∧
      (inflation_check_finalize (TxOutset.create txouts total hash node)
          prev_total height).2 = true) ↔
      total - prev_total > ((calc_max_inflation height : Int) : ℚ)) ∧
    (total - prev_total = ((calc_max_inflation height : Int) : ℚ) + 1 →
      (inflation_check_finalize (TxOutset.create txouts total hash node)
          prev_total height).1.inflated = true ∧
      (inflation_check_finalize (TxOutset.create txouts total hash node)
          prev_total height).2 = true) := by
  simp only [inflation_check_finalize, TxOutset.create]
  by_cases hc : total - prev_total > ((calc_max_inflation height : Int) : ℚ)
  · simp [hc]
  · simp [hc]
    intro heq
    exact hc (by rw [heq]; linarith)

/-- C5: for candidates with exactly 2 branches, whenever
`get_confirmed_in_one_branch` returns a set, that set is the symmetric
difference of short and long when |short| ≥ |long|, and short minus long
when |short| < |long|. -/
theorem c5_confirmed_in_one_branch
    (roots_headers_only short_txs long_txs : Bool)
    (short long : Finset String) (r : Finset String)
    (h : get_confirmed_in_one_branch 2 roots_headers_only short_txs long_txs
          short long = some r) :
    (long.card ≤ short.card → r = short \ long ∪ long \ short) ∧
    (short.card < long.card → r = short \ long) := by
  unfold get_confirmed_in_one_branch at h
  rw [if_neg (by norm_num : ¬ (2 : Int) ≠ 2)] at h
  split at h
  · exact absurd h (by simp)
  split at h
  · exact absurd h (by simp)
  split at h
  · exact absurd h (by simp)
  split at h
  · rename_i hlt
    have hr : short \ long = r := Option.some.inj h
    exact ⟨fun hcard => absurd hlt (not_lt.mpr hcard), fun _ => hr.symm⟩
  · rename_i hnlt
    have hr : short \ long ∪ long \ short = r := Option.some.inj h
    exact ⟨fun _ => hr.symm, fun hlt => absurd hlt hnlt⟩

/-- Witness for C5 at a concrete input: branches with txid sets
{a, b} and {b, c} (equal cardinality), so the result is the symmetric
difference {a, c}. -/
theorem c5_confirmed_in_one_branch_witness :
    get_confirmed_in_one_branch 2 false true true
        ({"a", "b"} : Finset String) ({"b", "c"} : Finset String) =
      some (({"a", "b"} : Finset String) \ {"b", "c"} ∪
        ({"b", "c"} : Finset String) \ {"a", "b"}) ∧
    (Finset.card ({"b", "c"} : Finset String) ≤
        Finset.card ({"a", "b"} : Finset String) →
      (({"a", "b"} : Finset String) \ {"b", "c"} ∪
          ({"b", "c"} : Finset String) \ {"a", "b"}) =
        ({"a", "b"} : Finset String) \ {"b", "c"} ∪
          ({"b", "c"} : Finset String) \ {"a", "b"}) :=
  ⟨by decide,
   (c5_confirmed_in_one_branch false true true {"a", "b"} {"b", "c"}
      (({"a", "b"} : Finset String) \ {"b", "c"} ∪
        ({"b", "c"} : Finset String) \ {"a", "b"}) (by decide)).1⟩

theorem filterLength_map_eq {α : Type} (l : List α) (f : α → α) (p : α → Bool)
    (hf : ∀ r ∈ l, p (f r) = p r) :
    ((l.map f).filter p).length = (l.filter p).length := by
  induction l with
  | nil => rfl
  | cons a t ih =>
    simp only [List.map_cons, List.filter_cons, hf a (List.mem_cons_self a t)]
    split
    · simp only [List.length_cons]
      rw [ih fun r hr => hf r (List.mem_cons_of_mem a hr)]
    · exact ih fun r hr => hf r (List.mem_cons_of_mem a hr)

theorem activeCount_map (db : ChaintipTable) (f : ChaintipRow → ChaintipRow)
    (hf : ∀ r ∈ db, (f r).status = r.status ∧ (f r).node = r.node) (n : Int) :
    activeCount (db.map f) n = activeCount db n := by
  unfold activeCount
  refine filterLength_map_eq db f _ ?_
  intro r hr
  rw [(hf r hr).1, (hf r hr).2]

theorem activeCount_append_single (db : ChaintipTable) (x : ChaintipRow)
    (n : Int) :
    activeCount (db ++ [x]) n =
      activeCount db n +
        (if (x.status == "active" && x.node == n) = true then 1 else 0) := by
  unfold activeCount
  rw [List.filter_append, List.length_append]
  congr 1
  by_cases hx : (x.status == "active" && x.node == n) = true
  · simp [List.filter_cons, hx]
  · simp [List.filter_cons, hx]

theorem activeCount_find_none (db : ChaintipTable) (node_id : Int)
    (h : db.find? (fun r => r.status == "active" && r.node == node_id) =
      none) :
    activeCount db node_id = 0 := by
  unfold activeCount
  rw [List.length_eq_zero, List.filter_eq_nil_iff]
  intro a ha
  have := List.find?_eq_none.mp h a ha
  simpa using this

/-- C6: the chaintip store operations (`purge`, `set_invalid_fork`,
`set_valid_fork`, `update` as the scanner uses it, and `set_active_tip`)
preserve "a node has at most one active chaintip row";  `set_active_tip`
inserts only when the node has no active row, otherwise it rewrites that
row in place (table length unchanged, the row carries the new hash and
height) and, when the stored hash differs from the reported one, no row of
the resulting table references the active row of the node as `parent_chaintip`
any more. -/
theorem c6_active_tip_invariant (db : ChaintipTable) (block_height : Int)
    (hash : String) (node_id fresh_id n : Int) (row : ChaintipRow)
    (hinv : activeCount db n ≤ 1)
    (hrow : ∀ r ∈ db, r.id = row.id →
      r.status = row.status ∧ r.node = row.node) :
    activeCount (Chaintip.set_active_tip db block_height hash node_id
      fresh_id) n ≤ 1 ∧
    activeCount (Chaintip.purge db) n ≤ 1 ∧
    activeCount (Chaintip.set_invalid_fork db block_height hash node_id
      fresh_id) n ≤ 1 ∧
    activeCount (Chaintip.set_valid_fork db block_height hash node_id
      fresh_id) n ≤ 1 ∧
    activeCount (Chaintip.update db row) n ≤ 1 ∧
    (db.find? (fun r => r.status == "active" && r.node == node_id) = none →
      Chaintip.set_active_tip db block_height hash node_id fresh_id =
        db ++ [⟨fresh_id, node_id, "active", hash, block_height, none⟩]) ∧
    (∀ tip,
      db.find? (fun r => r.status == "active" && r.node == node_id) =
        some tip →
      (Chaintip.set_active_tip db block_height hash node_id
        fresh_id).length = db.length ∧
      (tip.block ≠ hash →
        (∀ r ∈ Chaintip.set_active_tip db block_height hash node_id fresh_id,
          r.parent_chaintip ≠ some tip.id) ∧
        (∃ r ∈ Chaintip.set_active_tip db block_height hash node_id fresh_id,
          r.id = tip.id ∧ r.block = hash ∧ r.height = block_height ∧
            r.parent_chaintip = none))) := by
  refine ⟨?_, ?_, ?_, ?_, ?_, ?_, ?_⟩
  · -- invariant preservation for set_active_tip
    unfold Chaintip.set_active_tip
    cases hfind : db.find?
        (fun r => r.status == "active" && r.node == node_id) with
    | none =>
      simp only
      rw [activeCount_append_single]
      by_cases hn : node_id = n
      · subst hn
        rw [activeCount_find_none db node_id hfind]
        simp
      · simpa [hn] using hinv
    | some tip =>
      simp only
      by_cases hb : tip.block = hash
      · rw [if_neg (by simpa using hb)]
        exact hinv
      · rw [if_pos hb]
        have h2 := activeCount_map
          (db.map (fun r =>
            if r.parent_chaintip == some tip.id then
              { r with parent_chaintip := none }
            else r))
          (fun r =>
            if r.id == tip.id then
              { r with block := hash, height := block_height,
                       parent_chaintip := none }
            else r)
          (by intro r _; constructor <;> (dsimp only; split <;> rfl)) n
        have h1 := activeCount_map db
          (fun r =>
            if r.parent_chaintip == some tip.id then
              { r with parent_chaintip := none }
            else r)
          (by intro r _; constructor <;> (dsimp only; split <;> rfl)) n
        rw [h2, h1]
        exact hinv
  · -- purge
    unfold Chaintip.purge activeCount
    exact le_trans
      (List.Sublist.length_le ((List.filter_sublist db).filter _)) hinv
  · -- set_invalid_fork
    rw [Chaintip.set_invalid_fork, activeCount_append_single]
    simpa using hinv
  · -- set_valid_fork
    rw [Chaintip.set_valid_fork, activeCount_append_single]
    simpa using hinv
  · -- update
    rw [Chaintip.update]
    rw [activeCount_map db _ ?hg n]
    · exact hinv
    case hg =>
      intro r hr
      by_cases hid : (r.id == row.id) = true
      · have hid2 : r.id = row.id := by simpa using hid
        obtain ⟨hs, hn2⟩ := hrow r hr hid2
        simp only [hid, if_true]
        exact ⟨hs.symm, hn2.symm⟩
      · simp [hid]
  · -- insert only when no active row exists
    intro hfind
    unfold Chaintip.set_active_tip
    cases hcase : db.find?
        (fun r => r.status == "active" && r.node == node_id) with
    | none => rfl
    | some tip =>
      rw [hcase] at hfind
      simp at hfind
  · -- in-place update of the existing active row
    intro tip hfind
    unfold Chaintip.set_active_tip
    cases hcase : db.find?
        (fun r => r.status == "active" && r.node == node_id) with
    | none =>
      rw [hcase] at hfind
      simp at hfind
    | some tip2 =>
    rw [hcase] at hfind
    have htt : tip2 = tip := by injection hfind
    simp only
    rw [← htt]
    constructor
    · by_cases hb : tip2.block = hash
      · rw [if_neg (by simpa using hb)]
      · rw [if_pos hb]
        simp [List.length_map]
    · intro hb
      rw [if_pos hb]
      constructor
      · intro r hr
        rw [List.map_map] at hr
        obtain ⟨r0, _, hr0⟩ := List.mem_map.mp hr
        subst hr0
        dsimp only [Function.comp]
        by_cases hpc : r0.parent_chaintip = some tip2.id <;>
          by_cases hid : r0.id = tip2.id <;>
          simp [hpc, hid]
      · have htip : tip2 ∈ db := List.mem_of_find?_eq_some hcase
        refine ⟨(fun r =>
            if r.id == tip2.id then
              { r with block := hash, height := block_height,
                       parent_chaintip := none }
            else r)
          ((fun r =>
            if r.parent_chaintip == some tip2.id then
              { r with parent_chaintip := none }
            else r) tip2), ?_, ?_⟩
        · exact List.mem_map_of_mem _ (List.mem_map_of_mem _ htip)
        · by_cases hpc : tip2.parent_chaintip = some tip2.id <;> simp [hpc]

/-- Witness for C6 at a concrete input: node 5 with one active row,
`set_active_tip` moving it to hash h2 keeps at most one active row. -/
theorem c6_active_tip_invariant_witness :
    activeCount chaintipExampleDb 5 ≤ 1 ∧
    activeCount (Chaintip.set_active_tip chaintipExampleDb 60 "h2" 5 2) 5
      ≤ 1 :=
  ⟨by decide,
   (c6_active_tip_invariant chaintipExampleDb 60 "h2" 5 2 5
      chaintipExampleRow (by decide) (by decide)).1⟩

theorem get_or_create_length (db : List BlockRow) (ho : Bool) (nid : Int)
    (hash : String) (hi : HeaderInfo) :
    (Block.get_or_create db ho nid hash hi).1.length ≤ db.length + 1 := by
  unfold Block.get_or_create
  cases hf : db.find? (fun r => r.hash == hash) with
  | none =>
    simp only
    rw [List.length_append, List.length_map]
    simp
  | some b0 =>
    simp only
    rw [List.length_map]
    exact Nat.le_succ _

theorem get_or_create_mem (db : List BlockRow) (ho : Bool) (nid : Int)
    (hash : String) (hi : HeaderInfo) :
    ∃ r ∈ (Block.get_or_create db ho nid hash hi).1, r.hash = hash := by
  unfold Block.get_or_create
  cases hf : db.find? (fun r => r.hash == hash) with
  | none =>
    simp only
    refine ⟨_, List.mem_append_right _ (List.mem_singleton_self _), rfl⟩
  | some b0 =>
    simp only
    have hb0 : b0 ∈ db := List.mem_of_find?_eq_some hf
    have hbh : b0.hash = hash := by
      have := List.find?_some hf
      simpa using this
    refine ⟨_, List.mem_map_of_mem _ hb0, ?_⟩
    simp [hbh]

theorem ingest_loop_length (o : IngestOracle) (ho : Bool) (nid : Int) :
    ∀ (n : Nat) (hash : String) (db : List BlockRow),
      (create_block_and_ancestors_loop o ho nid n hash db).1.length ≤
        db.length + n := by
  intro n
  induction n with
  | zero =>
    intro hash db
    simp [create_block_and_ancestors_loop]
  | succ n ih =>
    intro hash db
    unfold create_block_and_ancestors_loop
    cases hh : o.header hash with
    | none => simp
    | some hi =>
      simp only
      have hlen := get_or_create_length db ho nid hash hi
      by_cases hc : (Block.get_or_create db ho nid hash hi).2.connected = true
      · simp only [hc, if_true]
        omega
      · simp only [hc, if_false, Bool.false_eq_true]
        cases hb : o.body hash with
        | notOnDisk => simp only; omega
        | rpcError => simp only; omega
        | ok txids has_vin =>
          simp only
          cases txids with
          | nil =>
            simp only
            cases hp : (Block.get_or_create db ho nid hash hi).2.parent_hash
              with
            | some h2 =>
              simp only
              have := ih h2 (Block.get_or_create db ho nid hash hi).1
              omega
            | none => simp only; omega
          | cons t ts =>
            simp only
            by_cases hv : has_vin = true
            · simp only [hv, Bool.not_true, if_false, Bool.false_eq_true]
              cases hp : (Block.get_or_create db ho nid hash hi).2.parent_hash
                with
              | some h2 =>
                simp only
                have h3 := ih h2
                  ((Block.get_or_create db ho nid hash hi).1.map (fun r =>
                    if r.hash == hash then { r with txids := some (t :: ts) }
                    else r))
                rw [List.length_map] at h3
                omega
              | none =>
                simp only
                rw [List.length_map]
                omega
            · have hv2 : has_vin = false := by
                cases has_vin
                · rfl
                · exact absurd rfl hv
              simp only [hv2, Bool.not_false, if_true]
              omega

theorem ingest_loop_no_pruned (o : IngestOracle) (ho : Bool) (nid : Int)
    (hbody : ∀ h2, o.body h2 ≠ BodyFetch.notOnDisk) :
    ∀ (n : Nat) (hash : String) (db : List BlockRow),
      (create_block_and_ancestors_loop o ho nid n hash db).2 ≠
        IngestStop.prunedBody := by
  intro n
  induction n with
  | zero =>
    intro hash db
    simp [create_block_and_ancestors_loop]
  | succ n ih =>
    intro hash db
    unfold create_block_and_ancestors_loop
    cases hh : o.header hash with
    | none => simp
    | some hi =>
      simp only
      by_cases hc : (Block.get_or_create db ho nid hash hi).2.connected = true
      · simp [hc]
      · simp only [hc, if_false, Bool.false_eq_true]
        cases hb : o.body hash with
        | notOnDisk => exact absurd hb (hbody hash)
        | rpcError => simp
        | ok txids has_vin =>
          simp only
          cases txids with
          | nil =>
            simp only
            cases hp : (Block.get_or_create db ho nid hash hi).2.parent_hash
              with
            | some h2 => exact ih h2 _
            | none => simp
          | cons t ts =>
            simp only
            by_cases hv : has_vin = true
            · simp only [hv, Bool.not_true, if_false, Bool.false_eq_true]
              cases hp : (Block.get_or_create db ho nid hash hi).2.parent_hash
                with
              | some h2 => exact ih h2 _
              | none => simp
            · have hv2 : has_vin = false := by
                cases has_vin
                · rfl
                · exact absurd rfl hv
              simp [hv2]

/-- C3 counterexample: on the pruned x0 → x1 → x2 chain the walk returns
success after storing exactly one row, whose block is not connected and has
a parent hash — so a successful run can stop early at a block that is
neither already connected nor parentless (the pruned body ends the
walk). -/
theorem c3_counterexample_pruned_early_stop :
    ingestStopIsOk
      (create_block_and_ancestors prunedTipOracle [] false "x0" 1).2 =
      true ∧
    (create_block_and_ancestors prunedTipOracle [] false "x0" 1).1 =
      [{ hash := "x0", height := 10, parent_hash := some "x1",
         connected := false, first_seen_by := 1, headers_only := false,
         work := "", txids := none }] := by
  constructor
  · decide
  · decide

/-- C3 (amended): the ancestor walk of `create_block_and_ancestors` adds at
most `MAX_ANCESTRY_DEPTH = 100` block rows; in a run whose body fetches
never report `BLOCK_NOT_ON_DISK`, a successful walk stops early only at an
already-connected block or at a block with no parent hash; and a fresh
chain of depth 150 with all bodies available and an empty table stores
exactly 100 rows, ending by depth exhaustion. -/
theorem c3_ingestion_depth_bound :
    (∀ (o : IngestOracle) (ho : Bool) (nid : Int) (n : Nat) (hash : String)
        (db : List BlockRow),
      (create_block_and_ancestors_loop o ho nid n hash db).1.length ≤
        db.length + n) ∧
    (∀ (o : IngestOracle) (db : List BlockRow) (ho : Bool) (hash : String)
        (nid : Int),
      (∀ h2, o.body h2 ≠ BodyFetch.notOnDisk) →
      ingestStopIsOk (create_block_and_ancestors o db ho hash nid).2 = true →
      ((create_block_and_ancestors o db ho hash nid).2 =
          IngestStop.depthExhausted ∨
        (create_block_and_ancestors o db ho hash nid).2 =
          IngestStop.alreadyConnected ∨
        (create_block_and_ancestors o db ho hash nid).2 =
          IngestStop.noParent)) ∧
    ((create_block_and_ancestors deepChainOracle [] false (chainHash 0) 1).1.length =
        100 ∧
      (create_block_and_ancestors deepChainOracle [] false (chainHash 0) 1).2 =
        IngestStop.depthExhausted) := by
  refine ⟨?_, ?_, ?_⟩
  · intro o ho nid n hash db
    exact ingest_loop_length o ho nid n hash db
  · intro o db ho hash nid hbody hok
    have hnp := ingest_loop_no_pruned o ho nid hbody MAX_ANCESTRY_DEPTH hash db
    unfold create_block_and_ancestors at hok ⊢
    cases hstop : (create_block_and_ancestors_loop o ho nid
        MAX_ANCESTRY_DEPTH hash db).2 <;>
      simp_all [ingestStopIsOk]
  · constructor
    · decide
    · decide

/-- Witness for C3: the second conjunct, instantiated at the deep fresh
chain (its bodies are all available, and the run is successful). -/
theorem c3_ingestion_depth_bound_witness :
    (create_block_and_ancestors deepChainOracle [] false (chainHash 0) 1).2 =
        IngestStop.depthExhausted ∨
      (create_block_and_ancestors deepChainOracle [] false (chainHash 0) 1).2 =
        IngestStop.alreadyConnected ∨
      (create_block_and_ancestors deepChainOracle [] false (chainHash 0) 1).2 =
        IngestStop.noParent :=
  c3_ingestion_depth_bound.2.1 deepChainOracle [] false (chainHash 0) 1
    (fun h2 => by simp [deepChainOracle]) (by decide)

/-- C8 counterexample: on the x0 → x1 → x2 chain whose tip body is pruned,
`create_block_and_ancestors` returns success having stored exactly one row —
the remaining ancestors are not walked (a full walk would store 3 rows). -/
theorem c8_counterexample_pruned_stops :
    (create_block_and_ancestors prunedTipOracle [] false "x0" 1).2 =
      IngestStop.prunedBody ∧
    (create_block_and_ancestors prunedTipOracle [] false "x0" 1).1.length =
      1 ∧
    ((create_block_and_ancestors prunedTipOracle [] false "x0" 1).1.length =
      3 → False) := by
  decide

/-- C8 (amended): when the body fetch of the current block reports
`BLOCK_NOT_ON_DISK` and the upserted row is not connected, the walk returns
success immediately with the table exactly as `get_or_create` left it (the
header-derived row is kept), visiting no further ancestor in this call. -/
theorem c8_pruned_body_is_success (o : IngestOracle) (db : List BlockRow)
    (ho : Bool) (nid : Int) (hash : String) (hi : HeaderInfo) (n : Nat)
    (hheader : o.header hash = some hi)
    (hbody : o.body hash = BodyFetch.notOnDisk)
    (hconn : (Block.get_or_create db ho nid hash hi).2.connected = false) :
    create_block_and_ancestors_loop o ho nid (n + 1) hash db =
      ((Block.get_or_create db ho nid hash hi).1, IngestStop.prunedBody) ∧
    ∃ r ∈ (create_block_and_ancestors_loop o ho nid (n + 1) hash db).1,
      r.hash = hash := by
  have hrun : create_block_and_ancestors_loop o ho nid (n + 1) hash db =
      ((Block.get_or_create db ho nid hash hi).1,
        IngestStop.prunedBody) := by
    unfold create_block_and_ancestors_loop
    rw [hheader]
    simp only [hconn, if_false, Bool.false_eq_true, hbody]
  refine ⟨hrun, ?_⟩
  rw [hrun]
  exact get_or_create_mem db ho nid hash hi

/-- Witness for the amended claim of C8 at the concrete pruned chain. -/
theorem c8_pruned_body_is_success_witness :
    create_block_and_ancestors_loop prunedTipOracle false 1 100 "x0" [] =
      ((Block.get_or_create [] false 1 "x0"
          { height := 10, prev_hash := some "x1", work := "" }).1,
        IngestStop.prunedBody) :=
  (c8_pruned_body_is_success prunedTipOracle [] false 1 "x0"
    { height := 10, prev_hash := some "x1", work := "" } 99
    (by decide) (by decide) (by decide)).1

/-- Witness for C4 at the halving boundary: a total-amount growth of
`calc_max_inflation 210000 + 1 = 25·10⁸ + 1` marks the row inflated and
creates an InflatedBlock row. -/
theorem c4_inflation_flag_witness :
    (inflation_check_finalize (TxOutset.create 5 2500000001 "h" 3) 0
        210000).1.inflated = true ∧
    (inflation_check_finalize (TxOutset.create 5 2500000001 "h" 3) 0
        210000).2 = true :=
  (c4_inflation_flag "h" 3 5 0 2500000001 210000).2 (by
    have hc : calc_max_inflation 210000 = 2500000000 := by decide
    rw [hc]
    norm_num)

theorem exists_height_of_non_invalid_count_pos (db : List BlockRow)
    (inv : List (String × Int)) (h : Int)
    (hpos : 0 < non_invalid_count_at_height db inv h) :
    h ∈ db.map (fun b => b.height) := by
  unfold non_invalid_count_at_height at hpos
  obtain ⟨a, ha⟩ := List.exists_mem_of_length_pos hpos
  have hmem := List.mem_filter.mp ha
  have hh : a.height = h := by
    have := hmem.2
    simp only [Bool.and_eq_true, beq_iff_eq] at this
    exact this.1
  exact List.mem_map.mpr ⟨a, hmem.1, hh⟩

/-- C7 counterexample: in `staleExampleDb` the scanner creates a
StaleCandidate exactly at height 100 — where height 99 holds no block at
all, so the claimed "exactly 1 block at h−1" condition is violated — while height 90
satisfies the claimed conditions (2 stored blocks above a single block at
89) yet gets no row, because one of its blocks carries an invalid mark and
the SQL counts only unmarked blocks. -/
theorem c7_counterexample_stale_finder :
    (find_stale_candidates staleExampleDb staleExampleInv).map Prod.fst =
      [100] ∧
    Block.max_height staleExampleDb = some 100 ∧
    count_at_height staleExampleDb 99 = 0 ∧
    1 < count_at_height staleExampleDb 90 ∧
    count_at_height staleExampleDb 89 = 1 ∧
    ((100 : Int) - STALE_WINDOW) < 90 := by
  decide

/-- C7 (amended): `find_stale_candidates` creates a StaleCandidate row
exactly at the heights h with h > tip − STALE_WINDOW at which more than one
block with no invalid-block mark is stored and at most one block is stored
at h − 1. -/
theorem c7_stale_candidate_heights (db : List BlockRow)
    (inv : List (String × Int)) (h : Int) :
    h ∈ (find_stale_candidates db inv).map Prod.fst ↔
      (∃ tip, Block.max_height db = some tip ∧ tip - STALE_WINDOW < h ∧
        1 < non_invalid_count_at_height db inv h ∧
        count_at_height db (h - 1) ≤ 1) := by
  unfold find_stale_candidates
  cases hmax : Block.max_height db with
  | none => simp
  | some tip =>
    simp only
    constructor
    · intro hmem
      obtain ⟨p, hp, hpfst⟩ := List.mem_map.mp hmem
      obtain ⟨a, ha, hfa⟩ := List.mem_filterMap.mp hp
      by_cases hcnt : count_at_height db (a - 1) > 1
      · rw [if_pos hcnt] at hfa
        cases hfa
      · rw [if_neg hcnt] at hfa
        have hpa : p = (a, (count_at_height db a : Int)) :=
          (Option.some.inj hfa).symm
        have hah : a = h := by
          rw [hpa] at hpfst
          simpa using hpfst
        subst hah
        unfold Block.find_stale_candidates at ha
        rw [List.mem_filter] at ha
        have hcond := of_decide_eq_true ha.2
        exact ⟨tip, rfl, hcond.1, hcond.2, not_lt.mp hcnt⟩
    · rintro ⟨tip2, htip2, hgt, hcnt2, hle⟩
      have htt : tip2 = tip := by
        injection htip2 with hv
        exact hv.symm
      subst htt
      refine List.mem_map.mpr ⟨(h, (count_at_height db h : Int)), ?_, rfl⟩
      refine List.mem_filterMap.mpr ⟨h, ?_, ?_⟩
      · unfold Block.find_stale_candidates
        rw [List.mem_filter]
        refine ⟨List.mem_dedup.mpr ?_, decide_eq_true ⟨hgt, hcnt2⟩⟩
        exact exists_height_of_non_invalid_count_pos db inv h
          (lt_trans zero_lt_one hcnt2)
      · rw [if_neg (not_lt.mpr hle)]

set_option maxRecDepth 8000 in
/-- C2 counterexample: when every `get_chain_tips` call fails, the
activate-tip loop never terminates — after 200 iterations (well beyond the
102 iterations that a 100-retry bound permits) it still has not
returned. -/
theorem c2_counterexample_rpc_error_loop :
    set_tip_active chainTipsErrOracle "T" 5 200 = LoopResult.outOfFuel ∧
    make_block_active chainTipsErrOracle "T" 5 200 =
      LoopResult.outOfFuel := by
  constructor
  · decide
  · decide

theorem set_tip_active_loop_fails (o : Nat → LoopIter) (tip_hash : String)
    (tip_height : Int)
    (hgood : ∀ i, ∃ tips active, (o i).tips = Except.ok tips ∧
      tips.find? (fun t => t.status == TipStatus.active) = some active ∧
      active.hash ≠ tip_hash ∧ ∃ ch, (o i).children = Except.ok ch) :
    ∀ (fuel i retry : Nat) (acc : List String), retry ≤ 101 →
      102 - retry ≤ fuel →
      set_tip_active_loop o tip_hash tip_height i retry acc fuel =
        LoopResult.failedRollback := by
  intro fuel
  induction fuel with
  | zero =>
    intro i retry acc h1 h2
    omega
  | succ n ih =>
    intro i retry acc h1 h2
    obtain ⟨tips, active, htips, hfind, hneq, ch, hch⟩ := hgood i
    unfold set_tip_active_loop
    rw [htips]
    simp only [hfind]
    have hhs : (active.hash == tip_hash) = false :=
      beq_eq_false_iff_ne.mpr hneq
    rw [hhs]
    simp only [Bool.false_eq_true, if_false]
    by_cases hr : retry > 100
    · rw [if_pos hr]
    · rw [if_neg hr]
      by_cases hh : (active.height == tip_height) = true
      · rw [if_pos hh]
        exact ih (i + 1) (retry + 1) _ (by omega) (by omega)
      · rw [if_neg hh]
        rw [hch]
        exact ih (i + 1) (retry + 1) _ (by omega) (by omega)

/-- C2 (amended): in every execution in which each `get_chain_tips` call
succeeds with an active tip present, each `Block::children` query succeeds,
and the reported active tip never equals the target, both `set_tip_active`
and `make_block_active` terminate with `FailedRollback` within 102 loop
iterations (the first attempt plus at most 101 retries; `retry_count`
reaches 101 before the `> 100` check fails the loop). -/
theorem c2_activate_tip_bounded (o : Nat → LoopIter) (tip_hash : String)
    (tip_height : Int)
    (hgood : ∀ i, ∃ tips active, (o i).tips = Except.ok tips ∧
      tips.find? (fun t => t.status == TipStatus.active) = some active ∧
      active.hash ≠ tip_hash ∧ ∃ ch, (o i).children = Except.ok ch) :
    ∀ fuel, 102 ≤ fuel →
      set_tip_active o tip_hash tip_height fuel =
        LoopResult.failedRollback ∧
      make_block_active o tip_hash tip_height fuel =
        LoopResult.failedRollback := by
  intro fuel hf
  have h := set_tip_active_loop_fails o tip_hash tip_height hgood fuel 0 0 []
    (by omega) (by omega)
  exact ⟨h, h⟩

/-- Witness for the amended claim of C2: an oracle that always reports a foreign
active tip "A" and never fails makes both loops return `FailedRollback` at
fuel 102. -/
theorem c2_activate_tip_bounded_witness :
    set_tip_active alwaysForeignTipOracle "T" 5 102 =
      LoopResult.failedRollback ∧
    make_block_active alwaysForeignTipOracle "T" 5 102 =
      LoopResult.failedRollback :=
  c2_activate_tip_bounded alwaysForeignTipOracle "T" 5
    (fun _ => ⟨_, _, rfl, rfl, by decide, _, rfl⟩) 102 (by omega)

/-- C9: processing a fresh stale candidate that has exactly 2 competing
blocks and no descendants stores `n_children = 4`, not 2: creation already
counted the 2 blocks and `set_children` increments again without resetting.
All three totals stay 0 and `height_processed` stays unset, because
`get_confirmed_in_one_branch` rejects `n_children = 4 ≠ 2`.  Exactly 2
children rows are written. -/
theorem c9_two_branches_no_descendants :
    (process_candidate (StaleCandidate.create 800000 2)
        [("a", ["a"]), ("b", ["b"])] 800000 false true true
        {"ta"} {"tb"} 7 8 9).1 =
      { height := 800000
        n_children := 4
        confirmed_in_one_branch_total := 0
        double_spent_in_one_branch_total := 0
        rbf_total := 0
        height_processed := none } ∧
    (process_candidate (StaleCandidate.create 800000 2)
        [("a", ["a"]), ("b", ["b"])] 800000 false true true
        {"ta"} {"tb"} 7 8 9).2.length = 2 := by
  exact ⟨rfl, rfl⟩

/-- C1: a concrete rollback-checks run that disables P2P, succeeds in
activating the tip, then hits a `get_chain_tips` error: the iteration ends
(scanner.rs 2279) having never called `setnetworkactive(true)`. -/
theorem c1_p2p_not_reenabled :
    rollback_tip_check p2pLeakOracle =
      [RollbackAction.netOff, RollbackAction.invalidate "B1"] ∧
    RollbackAction.netOff ∈ rollback_tip_check p2pLeakOracle ∧
    RollbackAction.netOn ∉ rollback_tip_check p2pLeakOracle := by
  have he : rollback_tip_check p2pLeakOracle =
      [RollbackAction.netOff, RollbackAction.invalidate "B1"] := by decide
  refine ⟨he, ?_, ?_⟩
  · rw [he]
    simp
  · rw [he]
    simp

/-- C10: in the rollback validator, when the database query for an existing
valid mark (or invalid mark) fails, the tip is skipped with no externally
visible action at all: no invalidation, no P2P toggle, no row written. -/
theorem c10_query_error_skips_tip (o : RollbackTipOracle)
    (h : o.is_valid = Except.error () ∨ o.is_invalid = Except.error ()) :
    rollback_tip_check o = [] := by
  have hguard : (unwrapOr o.is_valid true || unwrapOr o.is_invalid true) =
      true := by
    rcases h with h | h <;> simp [h, unwrapOr]
  unfold rollback_tip_check
  split
  · rfl
  · cases hbg : o.block_get with
    | none => rfl
    | some u => simp [hguard]

/-- Witness for C10 at a concrete oracle whose valid-mark query fails. -/
theorem c10_query_error_skips_tip_witness :
    (queryErrOracle.is_valid = Except.error () ∨
      queryErrOracle.is_invalid = Except.error ()) ∧
    rollback_tip_check queryErrOracle = [] :=
  ⟨Or.inl rfl, c10_query_error_skips_tip queryErrOracle (Or.inl rfl)⟩

end Forkscanner
